import Mathlib

/-!
Verification of the cythonbuilder command-line front end
(`src/cythonbuilder/cli.py`) against its specification.

The CLI module is embedded shallowly: argument handling is pure list
manipulation, the interactive prompts become boolean parameters, and the
three collaborator stages (discovery, compiler invocation, cleanup) are
oracle functions returning `Except`, so that the control flow of `main`
can be proved about for every possible stage outcome.  The collaborators
themselves (`cython_find_pyx_files`, `cython_clean`, `init_cython`) live
in a module that is not part of the provided sources; where a claim needs
their behaviour they are modelled from the specification, each such
definition marked `Modelled from the spec:`.
-/

namespace CythonBuilder

/-! ### Argument handling (cli.py, `main`, lines 38-46) -/

/-- The flag tokens removed by the stripping loop at cli.py line 45. -/
def globalFlags : List String :=
  ["-f", "--force", "-v", "--verbose", "-y", "--accept", "-o", "--overwrite"]

/-- The stripping loop at cli.py lines 45-46: for each flag in order,
`args.remove(flag)` deletes the first occurrence when present. -/
def stripGlobalFlags (args : List String) : List String :=
  globalFlags.foldl (fun acc f => acc.erase f) args

/-- `ACCEPT = '-y' in args or '--yes' in args` (cli.py line 43),
computed on the original argument list before stripping. -/
def acceptFlag (args : List String) : Bool :=
  args.contains "-y" || args.contains "--yes"

/-- `VERBOSE = '-v' in args or '--verbose' in args` (cli.py line 42). -/
def verboseFlag (args : List String) : Bool :=
  args.contains "-v" || args.contains "--verbose"

/-- The option tokens removed inside the `build` branch (cli.py line 85). -/
def buildFlagTokens : List String :=
  ["--no-annotations", "--include-numpy", "--no-cleanup"]

/-- `args = [a for a in args if a not in [...]]` (cli.py line 85). -/
def buildFilteredArgs (args : List String) : List String :=
  args.filter (fun a => !(buildFlagTokens.contains a))

/-- `args = [a for a in args if a not in ['--no-cleanup']]` (cli.py line 126). -/
def cleanFilteredArgs (args : List String) : List String :=
  args.filter (fun a => !((["--no-cleanup"] : List String).contains a))

/-- `target_filenames = args if len(args) > 0 else None`
(cli.py lines 72, 86 and 127). -/
def targetFilenames (args : List String) : Option (List String) :=
  if args.length > 0 then some args else none

/-- The numpy validation block of the `build` branch (cli.py lines 89-99),
two sequential `if` statements.  `ans1` is true when the user answers `y`
to the install-numpy prompt, `ans2` when the user answers `y` to the
include-numpy prompt.  `none` means the command quits (line 94); otherwise
the adjusted value of `include_numpy` is returned. -/
def validateNumpyStep1 (include_numpy numpy_is_installed ans1 : Bool) :
    Option Bool :=
  if include_numpy && !numpy_is_installed then
    if ans1 then none else some false
  else some include_numpy

/-- Both validation steps of cli.py lines 89-99 in sequence. -/
def validateNumpy (include_numpy numpy_is_installed ans1 ans2 : Bool) :
    Option Bool :=
  match validateNumpyStep1 include_numpy numpy_is_installed ans1 with
  | none => none
  | some inc =>
      if !inc && numpy_is_installed then some (if ans2 then true else inc)
      else some inc

/-! ### The command pipelines as traces of collaborator calls -/

/-- One observable call made by `main` to a collaborator. -/
inductive Event where
  | initCall : Event
  | discover : Option (List String) → Event
  | buildCall : List String → Bool → Bool → Event
  | cleanCall : List String → Bool → Event
deriving DecidableEq, Repr

/-- How an invocation of `main` ends. -/
inductive CmdResult where
  | success : CmdResult
  | quit : CmdResult
  | errorQuit : String → CmdResult
deriving DecidableEq, Repr

/-- Pipeline stage of an event, used to state sequential ordering. -/
def stageIdx : Event → Nat
  | .initCall => 0
  | .discover _ => 1
  | .buildCall _ _ _ => 2
  | .cleanCall _ _ => 3

/-- The environment `main` runs in: whether numpy is importable, the
answers typed at the three interactive prompts, and the outcome of each
collaborator call (`Except.error` models a raised exception). -/
structure World where
  numpyInstalled : Bool
  ans1 : Bool
  ans2 : Bool
  confirm : Bool
  discoverRes : Option (List String) → Except String (List String)
  buildRes : List String → Bool → Bool → Except String Unit
  cleanRes : List String → Bool → Except String Unit

/-- The `build` branch of `main` (cli.py lines 80-122).  `args` is the
argument list after global-flag stripping and after the command word was
popped.  Returns the trace of collaborator calls and the final result. -/
def runBuildCommand (ACCEPT : Bool) (args : List String) (w : World) :
    List Event × CmdResult :=
  let include_numpy := args.contains "--include-numpy"
  let dont_generate_annotations := args.contains "--no-annotations"
  let dont_cleanup := args.contains "--no-cleanup"
  let target_filenames := targetFilenames (buildFilteredArgs args)
  match validateNumpy include_numpy w.numpyInstalled w.ans1 w.ans2 with
  | none => ([], .quit)
  | some inc =>
    match w.discoverRes target_filenames with
    | .error e => ([.discover target_filenames], .errorQuit e)
    | .ok files =>
      if !ACCEPT && !w.confirm then
        ([.discover target_filenames], .quit)
      else
        match w.buildRes files (!dont_generate_annotations) inc with
        | .error e =>
            ([.discover target_filenames,
              .buildCall files (!dont_generate_annotations) inc],
             .errorQuit e)
        | .ok _ =>
          match w.cleanRes files dont_cleanup with
          | .error e =>
              ([.discover target_filenames,
                .buildCall files (!dont_generate_annotations) inc,
                .cleanCall files dont_cleanup],
               .errorQuit e)
          | .ok _ =>
              ([.discover target_filenames,
                .buildCall files (!dont_generate_annotations) inc,
                .cleanCall files dont_cleanup],
               .success)

/-- The `clean` branch of `main` (cli.py lines 123-145). -/
def runCleanCommand (ACCEPT : Bool) (args : List String) (w : World) :
    List Event × CmdResult :=
  let dont_cleanup := args.contains "--no-cleanup"
  let target_filenames := targetFilenames (cleanFilteredArgs args)
  match w.discoverRes target_filenames with
  | .error e => ([.discover target_filenames], .errorQuit e)
  | .ok files =>
    if !ACCEPT && !w.confirm then
      ([.discover target_filenames], .quit)
    else
      match w.cleanRes files dont_cleanup with
      | .error e =>
          ([.discover target_filenames, .cleanCall files dont_cleanup],
           .errorQuit e)
      | .ok _ =>
          ([.discover target_filenames, .cleanCall files dont_cleanup],
           .success)

/-- The `list` branch of `main` (cli.py lines 70-79); it has no
try/except, so a raised exception ends the process. -/
def runListCommand (args : List String) (w : World) :
    List Event × CmdResult :=
  match w.discoverRes (targetFilenames args) with
  | .error e => ([.discover (targetFilenames args)], .errorQuit e)
  | .ok _ => ([.discover (targetFilenames args)], .success)

/-- `main` (cli.py lines 35-150): compute ACCEPT on the raw arguments,
strip the global flags, pop the command word, dispatch.  An empty list,
`help` and unknown commands show the help screen and quit; `init` calls
`init_cython` and quits. -/
def runMain (argv : List String) (w : World) : List Event × CmdResult :=
  let ACCEPT := acceptFlag argv
  match stripGlobalFlags argv with
  | [] => ([], .quit)
  | cmd1 :: rest =>
    if cmd1 = "init" then ([.initCall], .quit)
    else if cmd1 = "list" then runListCommand rest w
    else if cmd1 = "build" then runBuildCommand ACCEPT rest w
    else if cmd1 = "clean" then runCleanCommand ACCEPT rest w
    else ([], .quit)

/-! ### Help-screen contents (cli.py, `display_help`, lines 24-31) -/

/-- The option tokens advertised for the `build` command on the help
screen (cli.py lines 25-27). -/
def helpBuildOptions : List String :=
  ["--include-numpy", "--no-annotation", "--no-cleanup"]

/-! ### Discovery, modelled from the spec

`cython_find_pyx_files` is imported by cli.py but its module is not part
of the provided sources, so discovery is modelled from the spec:
"walk the project tree, collect files matching the target source
extension, excluding virtual-environment and dependency directories;
optionally filter by a user-supplied name list", the filtered result
being "the intersection of the discovered files and the requested
names". -/

mutual
/-- A directory tree: a leaf file or a named directory of children. -/
inductive FsTree where
  | file (name : String) : FsTree
  | dir (name : String) (children : FsForest) : FsTree
/-- A list of sibling trees. -/
inductive FsForest where
  | nil : FsForest
  | cons (t : FsTree) (ts : FsForest) : FsForest
end

mutual
/-- All file paths in a tree, each as (directory components, filename). -/
def pathsOf : FsTree → List (List String × String)
  | .file n => [([], n)]
  | .dir d cs => (pathsOfForest cs).map (fun p => (d :: p.1, p.2))

/-- All file paths in a forest. -/
def pathsOfForest : FsForest → List (List String × String)
  | .nil => []
  | .cons t ts => pathsOf t ++ pathsOfForest ts
end

/-- Whether a filename carries the `.pyx` source extension. -/
def hasPyxExt (n : String) : Bool :=
  ".pyx".data.isSuffixOf n.data

mutual
/-- Modelled from the spec: the recursive walk of discovery.  Collect the
paths of files whose name carries the `.pyx` extension, skipping every
directory whose name is in the excluded list (virtual-environment and
dependency directories). -/
def findPyx (excluded : List String) : FsTree → List (List String × String)
  | .file n => if hasPyxExt n then [([], n)] else []
  | .dir d cs =>
    if excluded.contains d then []
    else (findPyxForest excluded cs).map (fun p => (d :: p.1, p.2))

/-- The walk over a forest of siblings. -/
def findPyxForest (excluded : List String) :
    FsForest → List (List String × String)
  | .nil => []
  | .cons t ts => findPyx excluded t ++ findPyxForest excluded ts
end

/-- Modelled from the spec: `cython_find_pyx_files` (imported by cli.py
from a module outside the provided sources).  Walk the tree collecting
`.pyx` files outside excluded directories; when `target_files` is
supplied, keep only the discovered files whose name is among the
requested names (the intersection of the discovered files and the
requested names). -/
def cython_find_pyx_files (excluded : List String) (tree : FsTree)
    (target_files : Option (List String)) : List (List String × String) :=
  match target_files with
  | none => findPyx excluded tree
  | some names => (findPyx excluded tree).filter (fun p => names.contains p.2)

/-! ### Artifact organisation, modelled from the spec -/

/-- The kinds of compiler-produced files the spec distinguishes. -/
inductive ArtifactKind where
  | binary : ArtifactKind
  | annotationHtml : ArtifactKind
  | intermediateC : ArtifactKind
deriving DecidableEq, Repr

/-- A compiler-produced file together with its current directory. -/
structure Artifact where
  name : String
  kind : ArtifactKind
  location : String
deriving DecidableEq, Repr

/-- Modelled from the spec: `cython_clean` (imported by cli.py from a
module outside the provided sources).  "Relocate generated
shared-library/binary artifacts into an output directory, relocate
annotation reports into a sub-directory, and delete intermediate
generated source/object files unless retention was requested." -/
def cython_clean (artifacts : List Artifact) (keep_c_files : Bool) :
    List Artifact :=
  (artifacts.filter (fun a =>
      match a.kind with
      | .intermediateC => keep_c_files
      | _ => true)).map (fun a =>
    match a.kind with
    | .binary => { a with location := "ext" }
    | .annotationHtml => { a with location := "ext/annotations" }
    | .intermediateC => a)

/-- Modelled from the spec: `init_cython` (imported by cli.py from a
module outside the provided sources).  Create the `ext` and
`ext/annotations` folders on demand: each is added to the set of
existing directories when absent. -/
def init_cython (dirs : List String) : List String :=
  let d1 := if "ext" ∈ dirs then dirs else dirs ++ ["ext"]
  if "ext/annotations" ∈ d1 then d1 else d1 ++ ["ext/annotations"]

/-! ### Concrete environments used by the witnesses -/

/-- An environment where every collaborator call succeeds. -/
def wOk : World :=
  { numpyInstalled := true, ans1 := false, ans2 := false, confirm := true,
    discoverRes := fun _ => .ok ["a.pyx"],
    buildRes := fun _ _ _ => .ok (),
    cleanRes := fun _ _ => .ok () }

/-- An environment where discovery raises. -/
def wDiscoverErr : World :=
  { wOk with discoverRes := fun _ => .error "boom" }

/-- An environment where the compiler invocation raises. -/
def wBuildErr : World :=
  { wOk with buildRes := fun _ _ _ => .error "cc" }

/-- An environment where cleanup raises. -/
def wCleanErr : World :=
  { wOk with cleanRes := fun _ _ => .error "mv" }

/-- An environment without numpy installed. -/
def wNoNumpy : World := { wOk with numpyInstalled := false }

/-- An environment without numpy installed where the user answers `y`
to the install-numpy prompt. -/
def wNoNumpyAns1 : World := { wNoNumpy with ans1 := true }

/-- Whether an artifact is an intermediate generated C source file. -/
def isIntermediateC (a : Artifact) : Bool :=
  match a.kind with
  | .intermediateC => true
  | _ => false

/-- A sample project tree used by witnesses: a `.pyx` file at top level
of the project directory, plus a `venv` directory containing another. -/
def sampleTree : FsTree :=
  .dir "proj"
    (.cons (.file "a.pyx")
      (.cons (.dir "venv" (.cons (.file "b.pyx") .nil))
        (.cons (.file "readme.md") .nil)))

/-- Sample artifacts used by witnesses. -/
def sampleArtifacts : List Artifact :=
  [⟨"a.cpython.so", .binary, "proj"⟩,
   ⟨"a.html", .annotationHtml, "proj"⟩,
   ⟨"a.c", .intermediateC, "proj"⟩]

/-! ### Helper lemmas -/

/-- Erasing a list of flags keeps membership of anything that is not one
of the flags. -/
theorem mem_foldl_erase {a : String} (flags l : List String)
    (h : a ∉ flags) :
    a ∈ flags.foldl (fun acc f => acc.erase f) l ↔ a ∈ l := by
  induction flags generalizing l with
  | nil => simp
  | cons f fs ih =>
    simp only [List.foldl_cons]
    rw [ih _ (fun hm => h (List.mem_cons_of_mem _ hm))]
    exact List.mem_erase_of_ne (fun he => h (he ▸ List.mem_cons_self _ _))

/-- The stripping loop removes one occurrence of `--accept`. -/
theorem count_stripGlobalFlags_accept (l : List String) :
    (stripGlobalFlags l).count "--accept" = l.count "--accept" - 1 := by
  simp only [stripGlobalFlags, globalFlags, List.foldl_cons, List.foldl_nil]
  rw [List.count_erase_of_ne (by decide), List.count_erase_of_ne (by decide),
    List.count_erase_self, List.count_erase_of_ne (by decide),
    List.count_erase_of_ne (by decide), List.count_erase_of_ne (by decide),
    List.count_erase_of_ne (by decide), List.count_erase_of_ne (by decide)]

/-- Numpy validation only lets `include_numpy` through as true when
numpy is installed. -/
theorem validateNumpy_some_true {i n a1 a2 : Bool}
    (h : validateNumpy i n a1 a2 = some true) : n = true := by
  revert h; revert i n a1 a2; decide

/-- When numpy is not installed, validation never turns inclusion on. -/
theorem validateNumpy_not_installed {i a1 a2 inc : Bool}
    (h : validateNumpy i false a1 a2 = some inc) : inc = false := by
  revert h; revert i a1 a2 inc; decide

mutual
/-- Membership in the discovery walk of a tree: exactly the paths of the
tree whose filename has the `.pyx` extension and none of whose directory
components is excluded. -/
theorem mem_findPyx (excluded : List String) (t : FsTree)
    (ds : List String) (n : String) :
    (ds, n) ∈ findPyx excluded t ↔
      (ds, n) ∈ pathsOf t ∧ hasPyxExt n = true ∧
        ∀ x ∈ ds, x ∉ excluded := by
  cases t with
  | file m =>
    cases hm : hasPyxExt m with
    | true =>
      simp only [findPyx, hm, if_true, pathsOf, List.mem_singleton,
        Prod.mk.injEq]
      constructor
      · rintro ⟨rfl, rfl⟩
        simp [hm]
      · rintro ⟨h, _⟩
        exact h
    | false =>
      simp only [findPyx, hm, Bool.false_eq_true, if_false,
        List.not_mem_nil, false_iff]
      rintro ⟨hmem, he, _⟩
      simp only [pathsOf, List.mem_singleton, Prod.mk.injEq] at hmem
      obtain ⟨rfl, rfl⟩ := hmem
      rw [hm] at he
      simp at he
  | dir d cs =>
    cases hd : excluded.contains d with
    | true =>
      have hdm : d ∈ excluded := by simpa using hd
      simp only [findPyx, hd, if_true, List.not_mem_nil, false_iff]
      rintro ⟨hmem, _, hall⟩
      simp only [pathsOf, List.mem_map] at hmem
      obtain ⟨⟨a, b⟩, hp, heq⟩ := hmem
      cases heq
      exact hall d (List.mem_cons_self _ _) hdm
    | false =>
      have hdm : d ∉ excluded := by simpa using hd
      simp only [findPyx, hd, Bool.false_eq_true, if_false, pathsOf,
        List.mem_map]
      constructor
      · rintro ⟨⟨a, b⟩, hp, heq⟩
        cases heq
        rw [mem_findPyxForest] at hp
        refine ⟨⟨(a, b), hp.1, rfl⟩, hp.2.1, ?_⟩
        intro x hx
        rcases List.mem_cons.mp hx with rfl | hx'
        · exact hdm
        · exact hp.2.2 x hx'
      · rintro ⟨⟨⟨a, b⟩, hp, heq⟩, hends, hall⟩
        cases heq
        exact ⟨(a, b), (mem_findPyxForest excluded cs a b).mpr
          ⟨hp, hends, fun x hx => hall x (List.mem_cons_of_mem _ hx)⟩, rfl⟩

/-- Membership in the discovery walk of a forest. -/
theorem mem_findPyxForest (excluded : List String) (ts : FsForest)
    (ds : List String) (n : String) :
    (ds, n) ∈ findPyxForest excluded ts ↔
      (ds, n) ∈ pathsOfForest ts ∧ hasPyxExt n = true ∧
        ∀ x ∈ ds, x ∉ excluded := by
  cases ts with
  | nil => simp [findPyxForest, pathsOfForest]
  | cons t ts' =>
    simp only [findPyxForest, pathsOfForest, List.mem_append]
    rw [mem_findPyx excluded t, mem_findPyxForest excluded ts']
    constructor
    · rintro (h | h)
      · exact ⟨Or.inl h.1, h.2⟩
      · exact ⟨Or.inr h.1, h.2⟩
    · rintro ⟨h | h, h2⟩
      · exact Or.inl ⟨h, h2⟩
      · exact Or.inr ⟨h, h2⟩
end

/-- Claim C1: discovery returns exactly the files of the tree whose name
carries the target source extension and which lie outside excluded
(virtual-environment and dependency) directories, and a supplied name
filter narrows the result to the intersection of the discovered files
with the requested names. -/
theorem cython_find_pyx_files_spec (excluded : List String) (tree : FsTree)
    (names : List String) (ds : List String) (n : String) :
    ((ds, n) ∈ cython_find_pyx_files excluded tree none ↔
      (ds, n) ∈ pathsOf tree ∧ hasPyxExt n = true ∧
        ∀ x ∈ ds, x ∉ excluded)
    ∧ ((ds, n) ∈ cython_find_pyx_files excluded tree (some names) ↔
      (ds, n) ∈ cython_find_pyx_files excluded tree none ∧
        names.contains n = true) := by
  constructor
  · exact mem_findPyx excluded tree ds n
  · simp [cython_find_pyx_files, List.mem_filter]

/-- Claim C1 witness: the project file is discovered, with and without a
name filter, on a concrete tree with a `venv` directory. -/
theorem cython_find_pyx_files_spec_witness :
    (["proj"], "a.pyx") ∈ cython_find_pyx_files ["venv"] sampleTree none
    ∧ (["proj"], "a.pyx") ∈
        cython_find_pyx_files ["venv"] sampleTree (some ["a.pyx"]) := by
  constructor
  · exact (cython_find_pyx_files_spec ["venv"] sampleTree [] ["proj"]
      "a.pyx").1.mpr (by decide)
  · exact (cython_find_pyx_files_spec ["venv"] sampleTree ["a.pyx"] ["proj"]
      "a.pyx").2.mpr
      ⟨(cython_find_pyx_files_spec ["venv"] sampleTree [] ["proj"]
        "a.pyx").1.mpr (by decide), by decide⟩

/-- In any build run the annotation flag passed to the compiler is the
negation of `--no-annotations`, and the numpy flag is the validated one. -/
theorem buildCall_mem_flags (ACCEPT : Bool) (args : List String) (w : World)
    (files : List String) (ca inc : Bool)
    (h : Event.buildCall files ca inc ∈ (runBuildCommand ACCEPT args w).1) :
    ca = !(args.contains "--no-annotations")
    ∧ validateNumpy (args.contains "--include-numpy") w.numpyInstalled
        w.ans1 w.ans2 = some inc := by
  revert h
  cases hval : validateNumpy (args.contains "--include-numpy")
      w.numpyInstalled w.ans1 w.ans2 with
  | none =>
    simp only [runBuildCommand, hval]
    intro h
    exact absurd h (List.not_mem_nil _)
  | some inc' =>
    cases hdisc : w.discoverRes (targetFilenames (buildFilteredArgs args)) with
    | error e =>
      simp only [runBuildCommand, hval, hdisc]
      intro h
      exact Event.noConfusion (List.mem_singleton.mp h)
    | ok fs =>
      cases hacc : (!ACCEPT && !w.confirm) with
      | true =>
        simp only [runBuildCommand, hval, hdisc, hacc, if_true]
        intro h
        exact Event.noConfusion (List.mem_singleton.mp h)
      | false =>
        cases hb : w.buildRes fs (!(args.contains "--no-annotations")) inc' with
        | error e =>
          simp only [runBuildCommand, hval, hdisc, hacc,
            Bool.false_eq_true, if_false, hb]
          intro h
          rcases List.mem_cons.mp h with h' | h'
          · exact Event.noConfusion h'
          rcases List.mem_cons.mp h' with h'' | h''
          · injection h'' with e1 e2 e3
            exact ⟨e2, by rw [e3]⟩
          · exact absurd h'' (List.not_mem_nil _)
        | ok u =>
          cases u
          cases hc : w.cleanRes fs (args.contains "--no-cleanup") with
          | error e =>
            simp only [runBuildCommand, hval, hdisc, hacc,
              Bool.false_eq_true, if_false, hb, hc]
            intro h
            rcases List.mem_cons.mp h with h' | h'
            · exact Event.noConfusion h'
            rcases List.mem_cons.mp h' with h'' | h''
            · injection h'' with e1 e2 e3
              exact ⟨e2, by rw [e3]⟩
            rcases List.mem_cons.mp h'' with h3 | h3
            · exact Event.noConfusion h3
            · exact absurd h3 (List.not_mem_nil _)
          | ok v =>
            cases v
            simp only [runBuildCommand, hval, hdisc, hacc,
              Bool.false_eq_true, if_false, hb, hc]
            intro h
            rcases List.mem_cons.mp h with h' | h'
            · exact Event.noConfusion h'
            rcases List.mem_cons.mp h' with h'' | h''
            · injection h'' with e1 e2 e3
              exact ⟨e2, by rw [e3]⟩
            rcases List.mem_cons.mp h'' with h3 | h3
            · exact Event.noConfusion h3
            · exact absurd h3 (List.not_mem_nil _)

/-- Exhaustive case analysis of a `build` invocation: the five ways the
pipeline of cli.py lines 101-122 can unfold. -/
theorem runBuild_cases (ACCEPT : Bool) (args : List String) (w : World) :
    (validateNumpy (args.contains "--include-numpy") w.numpyInstalled
        w.ans1 w.ans2 = none
      ∧ runBuildCommand ACCEPT args w = ([], CmdResult.quit))
    ∨ (∃ inc, validateNumpy (args.contains "--include-numpy") w.numpyInstalled
        w.ans1 w.ans2 = some inc
      ∧ ∃ e, w.discoverRes (targetFilenames (buildFilteredArgs args)) =
          Except.error e
      ∧ runBuildCommand ACCEPT args w =
          ([Event.discover (targetFilenames (buildFilteredArgs args))],
           CmdResult.errorQuit e))
    ∨ (∃ inc, validateNumpy (args.contains "--include-numpy") w.numpyInstalled
        w.ans1 w.ans2 = some inc
      ∧ ∃ files, w.discoverRes (targetFilenames (buildFilteredArgs args)) =
          Except.ok files
      ∧ (!ACCEPT && !w.confirm) = true
      ∧ runBuildCommand ACCEPT args w =
          ([Event.discover (targetFilenames (buildFilteredArgs args))],
           CmdResult.quit))
    ∨ (∃ inc files, validateNumpy (args.contains "--include-numpy")
        w.numpyInstalled w.ans1 w.ans2 = some inc
      ∧ w.discoverRes (targetFilenames (buildFilteredArgs args)) =
          Except.ok files
      ∧ (!ACCEPT && !w.confirm) = false
      ∧ ((∃ e, w.buildRes files (!(args.contains "--no-annotations")) inc =
            Except.error e
          ∧ runBuildCommand ACCEPT args w =
            ([Event.discover (targetFilenames (buildFilteredArgs args)),
              Event.buildCall files (!(args.contains "--no-annotations")) inc],
             CmdResult.errorQuit e))
        ∨ (w.buildRes files (!(args.contains "--no-annotations")) inc =
            Except.ok ()
          ∧ ((∃ e, w.cleanRes files (args.contains "--no-cleanup") =
                Except.error e
              ∧ runBuildCommand ACCEPT args w =
                ([Event.discover (targetFilenames (buildFilteredArgs args)),
                  Event.buildCall files
                    (!(args.contains "--no-annotations")) inc,
                  Event.cleanCall files (args.contains "--no-cleanup")],
                 CmdResult.errorQuit e))
            ∨ (w.cleanRes files (args.contains "--no-cleanup") = Except.ok ()
              ∧ runBuildCommand ACCEPT args w =
                ([Event.discover (targetFilenames (buildFilteredArgs args)),
                  Event.buildCall files
                    (!(args.contains "--no-annotations")) inc,
                  Event.cleanCall files (args.contains "--no-cleanup")],
                 CmdResult.success)))))) := by
  cases hval : validateNumpy (args.contains "--include-numpy")
      w.numpyInstalled w.ans1 w.ans2 with
  | none =>
    exact Or.inl ⟨rfl, by simp only [runBuildCommand, hval]⟩
  | some inc' =>
    cases hdisc : w.discoverRes (targetFilenames (buildFilteredArgs args)) with
    | error e =>
      exact Or.inr (Or.inl ⟨inc', rfl, e, rfl,
        by simp only [runBuildCommand, hval, hdisc]⟩)
    | ok fs =>
      cases hacc : (!ACCEPT && !w.confirm) with
      | true =>
        exact Or.inr (Or.inr (Or.inl ⟨inc', rfl, fs, rfl, rfl,
          by simp only [runBuildCommand, hval, hdisc, hacc, if_true]⟩))
      | false =>
        cases hb : w.buildRes fs (!(args.contains "--no-annotations")) inc' with
        | error e =>
          exact Or.inr (Or.inr (Or.inr ⟨inc', fs, rfl, rfl, rfl,
            Or.inl ⟨e, hb, by simp only [runBuildCommand, hval, hdisc,
              hacc, Bool.false_eq_true, if_false, hb]⟩⟩))
        | ok u =>
          cases u
          cases hc : w.cleanRes fs (args.contains "--no-cleanup") with
          | error e =>
            exact Or.inr (Or.inr (Or.inr ⟨inc', fs, rfl, rfl, rfl,
              Or.inr ⟨hb, Or.inl ⟨e, hc, by simp only [runBuildCommand,
                hval, hdisc, hacc, Bool.false_eq_true, if_false, hb, hc]⟩⟩⟩))
          | ok v =>
            cases v
            exact Or.inr (Or.inr (Or.inr ⟨inc', fs, rfl, rfl, rfl,
              Or.inr ⟨hb, Or.inr ⟨hc, by simp only [runBuildCommand,
                hval, hdisc, hacc, Bool.false_eq_true, if_false, hb, hc]⟩⟩⟩))

/-- Exhaustive case analysis of a `clean` invocation
(cli.py lines 123-145). -/
theorem runClean_cases (ACCEPT : Bool) (args : List String) (w : World) :
    (∃ e, w.discoverRes (targetFilenames (cleanFilteredArgs args)) =
        Except.error e
      ∧ runCleanCommand ACCEPT args w =
        ([Event.discover (targetFilenames (cleanFilteredArgs args))],
         CmdResult.errorQuit e))
    ∨ (∃ files, w.discoverRes (targetFilenames (cleanFilteredArgs args)) =
        Except.ok files
      ∧ (!ACCEPT && !w.confirm) = true
      ∧ runCleanCommand ACCEPT args w =
        ([Event.discover (targetFilenames (cleanFilteredArgs args))],
         CmdResult.quit))
    ∨ (∃ files, w.discoverRes (targetFilenames (cleanFilteredArgs args)) =
        Except.ok files
      ∧ (!ACCEPT && !w.confirm) = false
      ∧ ((∃ e, w.cleanRes files (args.contains "--no-cleanup") =
            Except.error e
          ∧ runCleanCommand ACCEPT args w =
            ([Event.discover (targetFilenames (cleanFilteredArgs args)),
              Event.cleanCall files (args.contains "--no-cleanup")],
             CmdResult.errorQuit e))
        ∨ (w.cleanRes files (args.contains "--no-cleanup") = Except.ok ()
          ∧ runCleanCommand ACCEPT args w =
            ([Event.discover (targetFilenames (cleanFilteredArgs args)),
              Event.cleanCall files (args.contains "--no-cleanup")],
             CmdResult.success)))) := by
  cases hdisc : w.discoverRes (targetFilenames (cleanFilteredArgs args)) with
  | error e =>
    exact Or.inl ⟨e, rfl, by simp only [runCleanCommand, hdisc]⟩
  | ok fs =>
    cases hacc : (!ACCEPT && !w.confirm) with
    | true =>
      exact Or.inr (Or.inl ⟨fs, rfl, rfl,
        by simp only [runCleanCommand, hdisc, hacc, if_true]⟩)
    | false =>
      cases hc : w.cleanRes fs (args.contains "--no-cleanup") with
      | error e =>
        exact Or.inr (Or.inr ⟨fs, rfl, rfl, Or.inl ⟨e, hc,
          by simp only [runCleanCommand, hdisc, hacc, Bool.false_eq_true,
            if_false, hc]⟩⟩)
      | ok v =>
        cases v
        exact Or.inr (Or.inr ⟨fs, rfl, rfl, Or.inr ⟨hc,
          by simp only [runCleanCommand, hdisc, hacc, Bool.false_eq_true,
            if_false, hc]⟩⟩)

/-- Once numpy validation lets the build proceed, the first collaborator
call of the `build` branch is discovery with the computed filter. -/
theorem runBuild_head (ACCEPT : Bool) (args : List String) (w : World)
    (inc : Bool)
    (hval : validateNumpy (args.contains "--include-numpy") w.numpyInstalled
      w.ans1 w.ans2 = some inc) :
    (runBuildCommand ACCEPT args w).1.head? =
      some (Event.discover (targetFilenames (buildFilteredArgs args))) := by
  rcases runBuild_cases ACCEPT args w with ⟨hv, heq⟩ | ⟨inc2, -, e, -, heq⟩ |
    ⟨inc2, -, files, -, -, heq⟩ | ⟨inc2, files, -, -, -,
      ⟨e, -, heq⟩ | ⟨-, ⟨e, -, heq⟩ | ⟨-, heq⟩⟩⟩
  · rw [hval] at hv
    exact Option.noConfusion hv
  all_goals rw [heq]
  all_goals rfl

/-- Any `cleanCall` of a `build` run carries `--no-cleanup` as its
retention flag. -/
theorem cleanCall_mem_flag_build (ACCEPT : Bool) (args : List String)
    (w : World) (fs : List String) (b : Bool)
    (h : Event.cleanCall fs b ∈ (runBuildCommand ACCEPT args w).1) :
    b = args.contains "--no-cleanup" := by
  rcases runBuild_cases ACCEPT args w with ⟨-, heq⟩ | ⟨inc, -, e, -, heq⟩ |
    ⟨inc, -, files, -, -, heq⟩ | ⟨inc, files, -, -, -,
      ⟨e, -, heq⟩ | ⟨-, ⟨e, -, heq⟩ | ⟨-, heq⟩⟩⟩ <;>
    rw [heq] at h <;> simp at h ⊢ <;> exact h.2

/-- Any `cleanCall` of a `clean` run carries `--no-cleanup` as its
retention flag. -/
theorem cleanCall_mem_flag_clean (ACCEPT : Bool) (args : List String)
    (w : World) (fs : List String) (b : Bool)
    (h : Event.cleanCall fs b ∈ (runCleanCommand ACCEPT args w).1) :
    b = args.contains "--no-cleanup" := by
  rcases runClean_cases ACCEPT args w with ⟨e, -, heq⟩ |
    ⟨files, -, -, heq⟩ | ⟨files, -, -, ⟨e, -, heq⟩ | ⟨-, heq⟩⟩ <;>
    rw [heq] at h <;> simp at h ⊢ <;> exact h.2

/-- Cleanup removes every intermediate C file when retention is off and
keeps them all when it is on. -/
theorem cython_clean_c_files (arts : List Artifact) (keep : Bool) :
    (cython_clean arts keep).filter isIntermediateC =
      (if keep then arts.filter isIntermediateC else []) := by
  induction arts with
  | nil => cases keep <;> rfl
  | cons a as ih =>
    rcases a with ⟨nm, k, loc⟩
    cases k with
    | binary =>
      have h1 : cython_clean (⟨nm, ArtifactKind.binary, loc⟩ :: as) keep
          = ⟨nm, ArtifactKind.binary, "ext"⟩ :: cython_clean as keep := by
        simp only [cython_clean]
        rw [List.filter_cons_of_pos rfl, List.map_cons]
      rw [h1, List.filter_cons_of_neg (by simp [isIntermediateC]), ih,
        List.filter_cons_of_neg (by simp [isIntermediateC])]
    | annotationHtml =>
      have h1 : cython_clean (⟨nm, ArtifactKind.annotationHtml, loc⟩ :: as)
            keep
          = ⟨nm, ArtifactKind.annotationHtml, "ext/annotations"⟩ ::
              cython_clean as keep := by
        simp only [cython_clean]
        rw [List.filter_cons_of_pos rfl, List.map_cons]
      rw [h1, List.filter_cons_of_neg (by simp [isIntermediateC]), ih,
        List.filter_cons_of_neg (by simp [isIntermediateC])]
    | intermediateC =>
      cases keep with
      | false =>
        have h1 : cython_clean (⟨nm, ArtifactKind.intermediateC, loc⟩ :: as)
              false
            = cython_clean as false := by
          simp only [cython_clean]
          rw [List.filter_cons_of_neg (by simp)]
        rw [h1, ih]
        simp
      | true =>
        have h1 : cython_clean (⟨nm, ArtifactKind.intermediateC, loc⟩ :: as)
              true
            = ⟨nm, ArtifactKind.intermediateC, loc⟩ :: cython_clean as true := by
          simp only [cython_clean]
          rw [List.filter_cons_of_pos rfl, List.map_cons]
        rw [h1, List.filter_cons_of_pos rfl, ih,
          List.filter_cons_of_pos rfl]
        simp

/-- Every artifact surviving cleanup sits in its designated output
location. -/
theorem cython_clean_locations (arts : List Artifact) (keep : Bool) :
    ∀ a ∈ cython_clean arts keep,
      (a.kind = ArtifactKind.binary → a.location = "ext")
      ∧ (a.kind = ArtifactKind.annotationHtml →
          a.location = "ext/annotations") := by
  intro a ha
  simp only [cython_clean, List.mem_map, List.mem_filter] at ha
  obtain ⟨b, ⟨hb, hp⟩, rfl⟩ := ha
  rcases b with ⟨nm, k, loc⟩
  cases k <;> simp

/-- Cleanup relocates every binary and every annotation report into the
output directories. -/
theorem cython_clean_keeps (arts : List Artifact) (keep : Bool) :
    ∀ a ∈ arts,
      (a.kind = ArtifactKind.binary →
        (⟨a.name, a.kind, "ext"⟩ : Artifact) ∈ cython_clean arts keep)
      ∧ (a.kind = ArtifactKind.annotationHtml →
        (⟨a.name, a.kind, "ext/annotations"⟩ : Artifact) ∈
          cython_clean arts keep) := by
  intro a ha
  rcases a with ⟨nm, k, loc⟩
  constructor
  · intro hk
    cases hk
    simp only [cython_clean, List.mem_map]
    exact ⟨⟨nm, .binary, loc⟩, List.mem_filter.mpr ⟨ha, rfl⟩, rfl⟩
  · intro hk
    cases hk
    simp only [cython_clean, List.mem_map]
    exact ⟨⟨nm, .annotationHtml, loc⟩, List.mem_filter.mpr ⟨ha, rfl⟩, rfl⟩

/-- Claim C2: in a `build` or `clean` invocation, an exception raised by
any stage (discovery, compiler invocation, cleanup) makes the command
report that error and terminate the invocation (`CmdResult.errorQuit`
models `logger.error` followed by `quit()`): the trace ends at the
failing stage, the failed call is not retried, and no later stage runs. -/
theorem build_clean_error_terminates (ACCEPT : Bool) (args : List String)
    (w : World) (e : String) (inc : Bool) (files : List String) :
    (validateNumpy (args.contains "--include-numpy") w.numpyInstalled
        w.ans1 w.ans2 = some inc →
      (w.discoverRes (targetFilenames (buildFilteredArgs args)) =
          Except.error e →
        runBuildCommand ACCEPT args w =
          ([Event.discover (targetFilenames (buildFilteredArgs args))],
           CmdResult.errorQuit e))
      ∧ (w.discoverRes (targetFilenames (buildFilteredArgs args)) =
          Except.ok files →
        (ACCEPT || w.confirm) = true →
        (w.buildRes files (!(args.contains "--no-annotations")) inc =
            Except.error e →
          runBuildCommand ACCEPT args w =
            ([Event.discover (targetFilenames (buildFilteredArgs args)),
              Event.buildCall files
                (!(args.contains "--no-annotations")) inc],
             CmdResult.errorQuit e))
        ∧ (w.buildRes files (!(args.contains "--no-annotations")) inc =
            Except.ok () →
          w.cleanRes files (args.contains "--no-cleanup") =
            Except.error e →
          runBuildCommand ACCEPT args w =
            ([Event.discover (targetFilenames (buildFilteredArgs args)),
              Event.buildCall files
                (!(args.contains "--no-annotations")) inc,
              Event.cleanCall files (args.contains "--no-cleanup")],
             CmdResult.errorQuit e))))
    ∧ (w.discoverRes (targetFilenames (cleanFilteredArgs args)) =
          Except.error e →
        runCleanCommand ACCEPT args w =
          ([Event.discover (targetFilenames (cleanFilteredArgs args))],
           CmdResult.errorQuit e))
    ∧ (w.discoverRes (targetFilenames (cleanFilteredArgs args)) =
          Except.ok files →
        (ACCEPT || w.confirm) = true →
        w.cleanRes files (args.contains "--no-cleanup") = Except.error e →
        runCleanCommand ACCEPT args w =
          ([Event.discover (targetFilenames (cleanFilteredArgs args)),
            Event.cleanCall files (args.contains "--no-cleanup")],
           CmdResult.errorQuit e)) := by
  refine ⟨fun hval => ⟨fun hdisc => ?_, fun hdisc hacc =>
      ⟨fun hb => ?_, fun hb hc => ?_⟩⟩, fun hdisc => ?_,
      fun hdisc hacc hc => ?_⟩
  · rcases runBuild_cases ACCEPT args w with ⟨hv, -⟩ |
      ⟨inc2, hv, e2, hd, heq⟩ | ⟨inc2, hv, fs2, hd, -, -⟩ |
      ⟨inc2, fs2, hv, hd, -, -⟩
    · rw [hval] at hv
      exact Option.noConfusion hv
    · rw [hdisc] at hd
      injection hd with he
      subst he
      exact heq
    · rw [hdisc] at hd
      exact Except.noConfusion hd
    · rw [hdisc] at hd
      exact Except.noConfusion hd
  · have hnacc : (!ACCEPT && !w.confirm) = false := by
      rw [← Bool.not_or, hacc]
      rfl
    rcases runBuild_cases ACCEPT args w with ⟨hv, -⟩ |
      ⟨inc2, hv, e2, hd, -⟩ | ⟨inc2, hv, fs2, hd, hacc2, -⟩ |
      ⟨inc2, fs2, hv, hd, -, ⟨e2, hb2, heq⟩ | ⟨hb2, -⟩⟩
    · rw [hval] at hv
      exact Option.noConfusion hv
    · rw [hdisc] at hd
      exact Except.noConfusion hd
    · rw [hacc2] at hnacc
      exact Bool.noConfusion hnacc
    · rw [hval] at hv
      injection hv with hi
      subst hi
      rw [hdisc] at hd
      injection hd with hf
      subst hf
      rw [hb] at hb2
      injection hb2 with he
      subst he
      exact heq
    · rw [hval] at hv
      injection hv with hi
      subst hi
      rw [hdisc] at hd
      injection hd with hf
      subst hf
      rw [hb] at hb2
      exact Except.noConfusion hb2
  · have hnacc : (!ACCEPT && !w.confirm) = false := by
      rw [← Bool.not_or, hacc]
      rfl
    rcases runBuild_cases ACCEPT args w with ⟨hv, -⟩ |
      ⟨inc2, hv, e2, hd, -⟩ | ⟨inc2, hv, fs2, hd, hacc2, -⟩ |
      ⟨inc2, fs2, hv, hd, -, ⟨e2, hb2, -⟩ | ⟨hb2, ⟨e2, hc2, heq⟩ | ⟨hc2, -⟩⟩⟩
    · rw [hval] at hv
      exact Option.noConfusion hv
    · rw [hdisc] at hd
      exact Except.noConfusion hd
    · rw [hacc2] at hnacc
      exact Bool.noConfusion hnacc
    · rw [hval] at hv
      injection hv with hi
      subst hi
      rw [hdisc] at hd
      injection hd with hf
      subst hf
      rw [hb] at hb2
      exact Except.noConfusion hb2
    · rw [hval] at hv
      injection hv with hi
      subst hi
      rw [hdisc] at hd
      injection hd with hf
      subst hf
      rw [hc] at hc2
      injection hc2 with he
      subst he
      exact heq
    · rw [hval] at hv
      injection hv with hi
      subst hi
      rw [hdisc] at hd
      injection hd with hf
      subst hf
      rw [hc] at hc2
      exact Except.noConfusion hc2
  · rcases runClean_cases ACCEPT args w with ⟨e2, hd, heq⟩ |
      ⟨fs2, hd, -, -⟩ | ⟨fs2, hd, -, -⟩
    · rw [hdisc] at hd
      injection hd with he
      subst he
      exact heq
    · rw [hdisc] at hd
      exact Except.noConfusion hd
    · rw [hdisc] at hd
      exact Except.noConfusion hd
  · have hnacc : (!ACCEPT && !w.confirm) = false := by
      rw [← Bool.not_or, hacc]
      rfl
    rcases runClean_cases ACCEPT args w with ⟨e2, hd, -⟩ |
      ⟨fs2, hd, hacc2, -⟩ | ⟨fs2, hd, -, ⟨e2, hc2, heq⟩ | ⟨hc2, -⟩⟩
    · rw [hdisc] at hd
      exact Except.noConfusion hd
    · rw [hacc2] at hnacc
      exact Bool.noConfusion hnacc
    · rw [hdisc] at hd
      injection hd with hf
      subst hf
      rw [hc] at hc2
      injection hc2 with he
      subst he
      exact heq
    · rw [hdisc] at hd
      injection hd with hf
      subst hf
      rw [hc] at hc2
      exact Except.noConfusion hc2

/-- Claim C2 witness: with a discovery stage that raises, the concrete
build command stops at discovery and reports the error. -/
theorem build_clean_error_terminates_witness :
    runBuildCommand true ["x"] wDiscoverErr =
      ([Event.discover (some ["x"])], CmdResult.errorQuit "boom") := by
  have h := build_clean_error_terminates true ["x"] wDiscoverErr "boom"
    false ["a.pyx"]
  exact (h.1 rfl).1 rfl

/-- Claim C3: after a successful `build` run the cleanup stage was
invoked with `keep_c_files` equal to the presence of `--no-cleanup`
(cli.py lines 84 and 117), and the modelled cleanup puts binaries in
`ext`, annotation reports in `ext/annotations`, and leaves intermediate
C files exactly when retention was requested. -/
theorem build_cleanup_flag_and_artifacts (ACCEPT : Bool)
    (args : List String) (w : World) (arts : List Artifact) (keep : Bool) :
    (∀ fs b, Event.cleanCall fs b ∈ (runBuildCommand ACCEPT args w).1 →
        b = args.contains "--no-cleanup")
    ∧ ((runBuildCommand ACCEPT args w).2 = CmdResult.success →
        ∃ fs, Event.cleanCall fs (args.contains "--no-cleanup") ∈
          (runBuildCommand ACCEPT args w).1)
    ∧ (cython_clean arts keep).filter isIntermediateC =
        (if keep then arts.filter isIntermediateC else [])
    ∧ (∀ a ∈ cython_clean arts keep,
        (a.kind = ArtifactKind.binary → a.location = "ext")
        ∧ (a.kind = ArtifactKind.annotationHtml →
            a.location = "ext/annotations"))
    ∧ (∀ a ∈ arts,
        (a.kind = ArtifactKind.binary →
          (⟨a.name, a.kind, "ext"⟩ : Artifact) ∈ cython_clean arts keep)
        ∧ (a.kind = ArtifactKind.annotationHtml →
          (⟨a.name, a.kind, "ext/annotations"⟩ : Artifact) ∈
            cython_clean arts keep)) := by
  refine ⟨cleanCall_mem_flag_build ACCEPT args w, fun hs => ?_,
    cython_clean_c_files arts keep, cython_clean_locations arts keep,
    cython_clean_keeps arts keep⟩
  rcases runBuild_cases ACCEPT args w with ⟨-, heq⟩ | ⟨inc, -, e, -, heq⟩ |
    ⟨inc, -, files, -, -, heq⟩ | ⟨inc, files, -, -, -,
      ⟨e, -, heq⟩ | ⟨-, ⟨e, -, heq⟩ | ⟨-, heq⟩⟩⟩ <;> rw [heq] at hs ⊢ <;>
    simp at hs ⊢

/-- Claim C3 witness: the concrete successful build run invokes cleanup
with retention off, and cleanup of concrete artifacts moves the binary
and the report while deleting the C file. -/
theorem build_cleanup_flag_and_artifacts_witness :
    (∃ fs, Event.cleanCall fs (["x"].contains "--no-cleanup") ∈
      (runBuildCommand true ["x"] wOk).1)
    ∧ (cython_clean sampleArtifacts false).filter isIntermediateC =
        (if false then sampleArtifacts.filter isIntermediateC else []) := by
  have h := build_cleanup_flag_and_artifacts true ["x"] wOk
    sampleArtifacts false
  exact ⟨h.2.1 (by decide), h.2.2.1⟩

/-- Claim C4: the three stages of a `build` invocation run strictly in
sequence: any compiler call is preceded by the discovery call, any
cleanup call concerns the files of a compiler call, and the trace is
strictly ordered by pipeline stage, so discovery completes before
compilation and compilation before cleanup. -/
theorem build_stages_sequential (ACCEPT : Bool) (args : List String)
    (w : World) :
    (runBuildCommand ACCEPT args w).1.Pairwise
      (fun a b => stageIdx a < stageIdx b)
    ∧ (∀ fs b, Event.cleanCall fs b ∈ (runBuildCommand ACCEPT args w).1 →
        ∃ ca inc, Event.buildCall fs ca inc ∈
          (runBuildCommand ACCEPT args w).1)
    ∧ (∀ fs ca inc, Event.buildCall fs ca inc ∈
          (runBuildCommand ACCEPT args w).1 →
        Event.discover (targetFilenames (buildFilteredArgs args)) ∈
          (runBuildCommand ACCEPT args w).1) := by
  rcases runBuild_cases ACCEPT args w with ⟨-, heq⟩ | ⟨inc, -, e, -, heq⟩ |
    ⟨inc, -, files, -, -, heq⟩ | ⟨inc, files, -, -, -,
      ⟨e, -, heq⟩ | ⟨-, ⟨e, -, heq⟩ | ⟨-, heq⟩⟩⟩ <;> rw [heq] <;>
    simp [stageIdx]

/-- Claim C4 witness: in the concrete successful run the compiler call
for the discovered files is present, obtained from the cleanup call. -/
theorem build_stages_sequential_witness :
    ∃ ca inc, Event.buildCall ["a.pyx"] ca inc ∈
      (runBuildCommand true ["x"] wOk).1 :=
  (build_stages_sequential true ["x"] wOk).2.1 ["a.pyx"] false (by decide)

/-- Claim C5: every compiler invocation of a `build` run carries
annotation generation on unless `--no-annotations` was passed, and a
numpy flag equal to the requested `--include-numpy` value as adjusted by
the interactive numpy validation. -/
theorem build_compiler_flags (ACCEPT : Bool) (args : List String)
    (w : World) (files : List String) (ca inc : Bool)
    (h : Event.buildCall files ca inc ∈ (runBuildCommand ACCEPT args w).1) :
    ca = !(args.contains "--no-annotations")
    ∧ validateNumpy (args.contains "--include-numpy") w.numpyInstalled
        w.ans1 w.ans2 = some inc :=
  buildCall_mem_flags ACCEPT args w files ca inc h

/-- Claim C5 witness: the concrete run without flags compiles with
annotations on and numpy off. -/
theorem build_compiler_flags_witness :
    true = !(["x"].contains "--no-annotations")
    ∧ validateNumpy (["x"].contains "--include-numpy") wOk.numpyInstalled
        wOk.ans1 wOk.ans2 = some false :=
  build_compiler_flags true ["x"] wOk ["a.pyx"] true false (by decide)

/-- Claim C6: `--yes` sets ACCEPT but the stripping loop removes
`--accept` instead of `--yes`, so `--yes` survives stripping and reaches
discovery inside the filename filter, while `--accept` is stripped yet
never sets ACCEPT. -/
theorem yes_accept_flag_mismatch (argv rest : List String) (w : World) :
    ("--yes" ∈ argv →
      acceptFlag argv = true
      ∧ "--yes" ∈ stripGlobalFlags argv
      ∧ (stripGlobalFlags argv = "build" :: rest →
          ∀ inc, validateNumpy (rest.contains "--include-numpy")
              w.numpyInstalled w.ans1 w.ans2 = some inc →
          ∃ l, (runMain argv w).1.head? = some (Event.discover (some l))
            ∧ "--yes" ∈ l))
    ∧ (stripGlobalFlags argv).count "--accept" = argv.count "--accept" - 1
    ∧ ("-y" ∉ argv → "--yes" ∉ argv → acceptFlag argv = false) := by
  refine ⟨fun hy => ⟨?_, ?_, fun hstrip inc hval => ?_⟩,
    count_stripGlobalFlags_accept argv, fun h1 h2 => ?_⟩
  · simp [acceptFlag, hy]
  · exact (mem_foldl_erase globalFlags argv (by decide)).mpr hy
  · have hys : "--yes" ∈ stripGlobalFlags argv :=
      (mem_foldl_erase globalFlags argv (by decide)).mpr hy
    rw [hstrip] at hys
    have hyr : "--yes" ∈ rest := by
      rcases List.mem_cons.mp hys with h | h
      · exact absurd h (by decide)
      · exact h
    have hbf : "--yes" ∈ buildFilteredArgs rest :=
      List.mem_filter.mpr ⟨hyr, by decide⟩
    have htf : targetFilenames (buildFilteredArgs rest) =
        some (buildFilteredArgs rest) := by
      simp only [targetFilenames]
      rw [if_pos (List.length_pos.mpr (List.ne_nil_of_mem hbf))]
    have hrm : runMain argv w = runBuildCommand (acceptFlag argv) rest w := by
      simp only [runMain, hstrip]
      simp
    refine ⟨buildFilteredArgs rest, ?_, hbf⟩
    rw [hrm, runBuild_head (acceptFlag argv) rest w inc hval, htf]
  · simp [acceptFlag, h1, h2]

/-- Claim C6 witness: on the concrete command line `build --yes`, ACCEPT
is set, `--yes` survives stripping, and it reaches discovery inside the
filter; one occurrence of `--accept` is stripped. -/
theorem yes_accept_flag_mismatch_witness :
    acceptFlag ["build", "--yes"] = true
    ∧ (∃ l, (runMain ["build", "--yes"] wOk).1.head? =
        some (Event.discover (some l)) ∧ "--yes" ∈ l)
    ∧ (stripGlobalFlags ["--accept"]).count "--accept" =
        (["--accept"] : List String).count "--accept" - 1 := by
  have h := yes_accept_flag_mismatch ["build", "--yes"] ["--yes"] wOk
  have h1 := h.1 (by decide)
  exact ⟨h1.1, h1.2.2 (by decide) false rfl,
    (yes_accept_flag_mismatch ["--accept"] [] wOk).2.1⟩

/-- Claim C7: the help screen advertises `--no-annotation` but the
`build` branch only recognises `--no-annotations`; an invocation with the
advertised spelling keeps annotation generation on and the token flows
into the filename filter. -/
theorem help_advertised_spelling (ACCEPT : Bool) (args : List String)
    (w : World) :
    "--no-annotation" ∈ helpBuildOptions
    ∧ "--no-annotation" ∉ buildFlagTokens
    ∧ ("--no-annotation" ∈ args →
        ("--no-annotation" ∈ buildFilteredArgs args
         ∧ ∃ l, targetFilenames (buildFilteredArgs args) = some l
             ∧ "--no-annotation" ∈ l)
        ∧ ("--no-annotations" ∉ args →
            ∀ files ca inc, Event.buildCall files ca inc ∈
              (runBuildCommand ACCEPT args w).1 → ca = true)) := by
  refine ⟨by decide, by decide, fun hmem => ⟨⟨?_, ?_⟩,
    fun hno files ca inc h => ?_⟩⟩
  · exact List.mem_filter.mpr ⟨hmem, by decide⟩
  · have hbf : "--no-annotation" ∈ buildFilteredArgs args :=
      List.mem_filter.mpr ⟨hmem, by decide⟩
    refine ⟨buildFilteredArgs args, ?_, hbf⟩
    simp only [targetFilenames]
    rw [if_pos (List.length_pos.mpr (List.ne_nil_of_mem hbf))]
  · have hca := (buildCall_mem_flags ACCEPT args w files ca inc h).1
    have hcontains : args.contains "--no-annotations" = false := by
      simpa using hno
    rw [hca, hcontains]
    rfl

/-- Claim C7 witness: with the advertised spelling alone, the token is
passed on as a filename filter. -/
theorem help_advertised_spelling_witness :
    ∃ l, targetFilenames (buildFilteredArgs ["--no-annotation"]) = some l
      ∧ "--no-annotation" ∈ l :=
  ((help_advertised_spelling true ["--no-annotation"] wOk).2.2
    (by decide)).1.2

/-- Claim C8: `init` creates the `ext` and `ext/annotations` directories
on demand (preserving whatever exists) and then quits: its trace is the
single `init_cython` call, with no discovery, compilation or cleanup. -/
theorem init_creates_output_dirs (dirs argv rest : List String)
    (w : World) :
    ("ext" ∈ init_cython dirs ∧ "ext/annotations" ∈ init_cython dirs
      ∧ ∀ d ∈ dirs, d ∈ init_cython dirs)
    ∧ (stripGlobalFlags argv = "init" :: rest →
        runMain argv w = ([Event.initCall], CmdResult.quit)) := by
  constructor
  · refine ⟨?_, ?_, ?_⟩ <;>
      · simp only [init_cython]
        split_ifs <;> simp_all
  · intro hstrip
    simp only [runMain, hstrip]
    simp

/-- Claim C8 witness: from an empty directory state, `init` creates both
directories, and the concrete `init` invocation only calls
`init_cython` and quits. -/
theorem init_creates_output_dirs_witness :
    "ext" ∈ init_cython [] ∧ "ext/annotations" ∈ init_cython []
    ∧ runMain ["init"] wOk = ([Event.initCall], CmdResult.quit) := by
  have h := init_creates_output_dirs [] ["init"] [] wOk
  exact ⟨h.1.1, h.1.2.1, h.2 (by decide)⟩

/-- Claim C9: the compiler is never invoked with numpy inclusion while
numpy is absent: a compiled numpy flag implies numpy is installed, and
when `--include-numpy` is passed without numpy the command either quits
after the install advice or forces the flag off. -/
theorem build_numpy_invariant (ACCEPT : Bool) (args : List String)
    (w : World) :
    (∀ files ca, Event.buildCall files ca true ∈
        (runBuildCommand ACCEPT args w).1 → w.numpyInstalled = true)
    ∧ (args.contains "--include-numpy" = true →
        w.numpyInstalled = false →
        (w.ans1 = true →
          runBuildCommand ACCEPT args w = ([], CmdResult.quit))
        ∧ (∀ files ca inc, Event.buildCall files ca inc ∈
            (runBuildCommand ACCEPT args w).1 → inc = false)) := by
  constructor
  · intro files ca h
    exact validateNumpy_some_true
      (buildCall_mem_flags ACCEPT args w files ca true h).2
  · intro hin hni
    constructor
    · intro ha1
      have hval : validateNumpy (args.contains "--include-numpy")
          w.numpyInstalled w.ans1 w.ans2 = none := by
        rw [hin, hni, ha1]
        rfl
      simp only [runBuildCommand, hval]
    · intro files ca inc h
      have h2 := (buildCall_mem_flags ACCEPT args w files ca inc h).2
      rw [hni] at h2
      exact validateNumpy_not_installed h2

/-- Claim C9 witness: a concrete run whose compiler call has numpy on
happens in a world with numpy installed, and the concrete
`--include-numpy` run without numpy quits when the user asks for the
install advice. -/
theorem build_numpy_invariant_witness :
    wOk.numpyInstalled = true
    ∧ runBuildCommand true ["--include-numpy"] wNoNumpyAns1 =
        ([], CmdResult.quit) := by
  refine ⟨(build_numpy_invariant true ["--include-numpy"] wOk).1
    ["a.pyx"] true (by decide), ?_⟩
  exact ((build_numpy_invariant true ["--include-numpy"] wNoNumpyAns1).2
    (by decide) rfl).1 rfl

/-- Claim C10: the name filter is optional: an empty remaining argument
list yields filter `None` and a nonempty one is passed verbatim; for
`list`, `clean` and `build` the discovery call receives exactly
`targetFilenames` of the remaining arguments. -/
theorem optional_name_filter :
    (∀ args : List String, (args = [] → targetFilenames args = none)
      ∧ (args ≠ [] → targetFilenames args = some args))
    ∧ (∀ (args : List String) (w : World),
        (runListCommand args w).1 =
          [Event.discover (targetFilenames args)])
    ∧ (∀ (ACCEPT : Bool) (args : List String) (w : World),
        (runCleanCommand ACCEPT args w).1.head? =
          some (Event.discover (targetFilenames (cleanFilteredArgs args))))
    ∧ (∀ (ACCEPT : Bool) (args : List String) (w : World) (inc : Bool),
        validateNumpy (args.contains "--include-numpy") w.numpyInstalled
          w.ans1 w.ans2 = some inc →
        (runBuildCommand ACCEPT args w).1.head? =
          some (Event.discover (targetFilenames (buildFilteredArgs args)))) := by
  refine ⟨fun args => ⟨fun h => ?_, fun h => ?_⟩, fun args w => ?_,
    fun ACCEPT args w => ?_, fun ACCEPT args w inc hval =>
      runBuild_head ACCEPT args w inc hval⟩
  · subst h
    rfl
  · simp only [targetFilenames]
    rw [if_pos (List.length_pos.mpr h)]
  · cases hd : w.discoverRes (targetFilenames args) <;>
      simp only [runListCommand, hd]
  · rcases runClean_cases ACCEPT args w with ⟨e, -, heq⟩ |
      ⟨files, -, -, heq⟩ | ⟨files, -, -, ⟨e, -, heq⟩ | ⟨-, heq⟩⟩ <;>
      rw [heq] <;> rfl

/-- Claim C10 witness: a nonempty argument list is passed verbatim as the
filter, and the concrete build run passes its remaining argument to
discovery. -/
theorem optional_name_filter_witness :
    targetFilenames ["a"] = some ["a"]
    ∧ (runBuildCommand true ["x"] wOk).1.head? =
        some (Event.discover (some ["x"])) := by
  refine ⟨(optional_name_filter.1 ["a"]).2 (by decide), ?_⟩
  exact optional_name_filter.2.2.2 true ["x"] wOk false rfl

end CythonBuilder
